import Mathlib

/-!
Verification development for the `next-server-session` package.

The embedding models the TypeScript source shallowly:

* A JavaScript object is an association list from string keys to values
  (`JsMap`); JS objects are heap-allocated and passed by reference, so the
  program state carries a `heap : List (JsMap α)` and functions exchange
  references (`Nat` indices into the heap).  This matters: the in-memory
  session store returns the stored `value.data` object itself from `get`,
  so a caller mutating that object (as `validateCSRFToken` and
  `pluckSessionProperty` do with `delete`) mutates the stored record.
* `Map` from the memory store is an association list with `Map.set`
  update-or-append semantics (`mapSet`).
* All `Date.now()` reads inside one request flow see the same `now`.
* Cookie writes to the response and the store mutation operations are
  recorded in an effect log; `store.get` is a read (its `lastUpdate` bump is
  visible in the `store` component, not logged as a write effect).
* The background expiry sweep (`setInterval(..., 10000)`) is modelled by
  applying the sweep body at an explicit list of tick times.
* The overload resolution (`getReqRes` / `isContext`) only normalises the
  argument shapes; the embedding works on the normalised `(request, data)`
  form directly.  An omitted argument is `none`.
-/

namespace NextServerSession

/-- Model of a JavaScript object: an association list from string keys to
values; the first binding for a key wins (JS objects have unique keys, and the
operations below preserve that when their inputs satisfy it). -/
abbrev JsMap (α : Type) : Type := List (String × α)

variable {α : Type} {β : Type}

/-- Property read `d[k]`: value of the first binding of `k`; `none` models
`undefined`. -/
def jsGet : JsMap α → String → Option α
  | [], _ => none
  | (k2, v) :: rest, k => if k2 = k then some v else jsGet rest k

/-- Property removal `delete d[k]`: drops the binding(s) of `k`, keeping the
other bindings in order. -/
def jsDelete : JsMap α → String → JsMap α
  | [], _ => []
  | (k2, v) :: rest, k => if k2 = k then jsDelete rest k else (k2, v) :: jsDelete rest k

/-- Model of `Object.assign({}, a, b)`: keys of `a` in their order with values
overridden by `b` where `b` also binds them, followed by the keys only `b`
binds, in `b`'s order. -/
def jsAssign (a b : JsMap α) : JsMap α :=
  a.map (fun p => match jsGet b p.1 with | some v => (p.1, v) | none => p)
    ++ b.filter (fun p => (jsGet a p.1).isNone)

/-- Keys of a JS object are unique. -/
def keysNodup (d : JsMap α) : Prop := (d.map Prod.fst).Nodup

/-- Model of `Map.prototype.set`: update the existing binding in place, or
append a new binding at the end. -/
def mapSet : List (String × β) → String → β → List (String × β)
  | [], k, v => [(k, v)]
  | (k2, v2) :: rest, k, v =>
      if k2 = k then (k, v) :: rest else (k2, v2) :: mapSet rest k v

/-- Model of `Map.prototype.delete`. -/
def mapDelete : List (String × β) → String → List (String × β)
  | [], _ => []
  | (k2, v2) :: rest, k => if k2 = k then mapDelete rest k else (k2, v2) :: mapDelete rest k

theorem jsGet_mapSet_self (l : List (String × β)) (k : String) (v : β) :
    jsGet (mapSet l k v) k = some v := by
  induction l with
  | nil => simp [mapSet, jsGet]
  | cons p rest ih =>
      obtain ⟨k2, v2⟩ := p
      by_cases h : k2 = k
      · simp [mapSet, h, jsGet]
      · simp [mapSet, h, jsGet, ih]

theorem jsGet_mapSet_ne (l : List (String × β)) {k k2 : String} (v : β) (h : k2 ≠ k) :
    jsGet (mapSet l k v) k2 = jsGet l k2 := by
  have h2 : ¬(k = k2) := fun hh => h hh.symm
  induction l with
  | nil => simp [mapSet, jsGet, h2]
  | cons p rest ih =>
      obtain ⟨k3, v3⟩ := p
      by_cases h3 : k3 = k
      · subst h3
        simp [mapSet, jsGet, h2]
      · by_cases h4 : k3 = k2
        · simp [mapSet, h3, jsGet, h4, h]
        · simp [mapSet, h3, jsGet, h4, ih]

theorem mapSet_mapSet (l : List (String × β)) (k : String) (v w : β) :
    mapSet (mapSet l k v) k w = mapSet l k w := by
  induction l with
  | nil => simp [mapSet]
  | cons p rest ih =>
      obtain ⟨k2, v2⟩ := p
      by_cases h : k2 = k
      · simp [mapSet, h]
      · simp [mapSet, h, ih]

theorem jsGet_jsDelete_self (d : JsMap α) (k : String) :
    jsGet (jsDelete d k) k = none := by
  induction d with
  | nil => simp [jsDelete, jsGet]
  | cons p rest ih =>
      obtain ⟨k2, v⟩ := p
      by_cases h : k2 = k
      · simp [jsDelete, h, ih]
      · simp [jsDelete, h, jsGet, ih]

theorem jsGet_jsDelete_ne (d : JsMap α) {k k2 : String} (h : k2 ≠ k) :
    jsGet (jsDelete d k) k2 = jsGet d k2 := by
  have h2 : ¬(k = k2) := fun hh => h hh.symm
  induction d with
  | nil => simp [jsDelete]
  | cons p rest ih =>
      obtain ⟨k3, v⟩ := p
      by_cases h3 : k3 = k
      · subst h3
        simp [jsDelete, jsGet, h2, ih]
      · by_cases h4 : k3 = k2
        · simp [jsDelete, h3, jsGet, h4, h]
        · simp [jsDelete, h3, jsGet, h4, ih]

theorem jsAssign_nil_left (b : JsMap α) : jsAssign [] b = b := by
  simp only [jsAssign, List.map_nil, List.nil_append]
  induction b with
  | nil => rfl
  | cons p rest ih => simp [List.filter_cons, jsGet, ih]

theorem jsGet_of_mem_nodup {d : JsMap α} {k : String} {v : α}
    (hn : keysNodup d) (hm : (k, v) ∈ d) : jsGet d k = some v := by
  induction d with
  | nil => simp at hm
  | cons p rest ih =>
      obtain ⟨k2, v2⟩ := p
      simp only [keysNodup, List.map_cons, List.nodup_cons] at hn
      rcases List.mem_cons.mp hm with h | h
      · rw [Prod.mk.injEq] at h
        simp [jsGet, h.1, h.2]
      · have hk : k2 ≠ k := by
          intro he
          exact hn.1 (by
            subst he
            exact List.mem_map.mpr ⟨(k2, v), h, rfl⟩)
        simp [jsGet, hk]
        exact ih hn.2 h

theorem mem_of_mem_jsDelete {d : JsMap α} {k : String} {p : String × α}
    (h : p ∈ jsDelete d k) : p ∈ d := by
  induction d with
  | nil => simpa [jsDelete] using h
  | cons q rest ih =>
      obtain ⟨k2, v2⟩ := q
      by_cases h2 : k2 = k
      · simp only [jsDelete, h2, if_true] at h
        exact List.mem_cons_of_mem _ (ih h)
      · simp only [jsDelete, h2, if_false, List.mem_cons] at h
        rcases h with h | h
        · exact List.mem_cons.mpr (Or.inl h)
        · exact List.mem_cons_of_mem _ (ih h)

theorem keysNodup_jsDelete {d : JsMap α} (k : String) (hn : keysNodup d) :
    keysNodup (jsDelete d k) := by
  induction d with
  | nil => simpa [jsDelete] using hn
  | cons p rest ih =>
      obtain ⟨k2, v⟩ := p
      simp only [keysNodup, List.map_cons, List.nodup_cons] at hn
      by_cases h : k2 = k
      · simp only [jsDelete, h, if_true]
        exact ih hn.2
      · simp only [jsDelete, h, if_false, keysNodup, List.map_cons, List.nodup_cons]
        refine ⟨fun hc => ?_, ih hn.2⟩
        obtain ⟨⟨k3, v3⟩, hm, he⟩ := List.mem_map.mp hc
        exact hn.1 (he ▸ List.mem_map.mpr ⟨(k3, v3), mem_of_mem_jsDelete hm, rfl⟩)

theorem map_eq_self_of_forall {γ : Type} {l : List γ} {f : γ → γ}
    (h : ∀ a ∈ l, f a = a) : l.map f = l := by
  induction l with
  | nil => rfl
  | cons x xs ih =>
      simp only [List.map_cons, h x (List.mem_cons_self x xs), List.cons.injEq, true_and]
      exact ih (fun a ha => h a (List.mem_cons_of_mem x ha))

theorem jsAssign_self {d : JsMap α} (hn : keysNodup d) : jsAssign d d = d := by
  unfold jsAssign
  have hmap : d.map (fun p => match jsGet d p.1 with | some v => (p.1, v) | none => p) = d := by
    refine map_eq_self_of_forall (fun p hp => ?_)
    have hm : (p.1, p.2) ∈ d := by simpa using hp
    rw [jsGet_of_mem_nodup hn hm]
  have hfil : d.filter (fun p => (jsGet d p.1).isNone) = [] := by
    rw [List.filter_eq_nil_iff]
    intro p hp
    have hm : (p.1, p.2) ∈ d := by simpa using hp
    rw [jsGet_of_mem_nodup hn hm]
    simp
  rw [hmap, hfil, List.append_nil]

theorem getD_append_self (l : List β) (d x : β) : (l ++ [d]).getD l.length x = d := by
  induction l with
  | nil => simp [List.getD]
  | cons p rest ih => simpa [List.getD] using ih

theorem getD_append_len (l : List β) (d : β) (rest : List β) (x : β) :
    (l ++ d :: rest).getD l.length x = d := by
  induction l with
  | nil => simp [List.getD]
  | cons p l2 ih => simpa [List.getD] using ih

theorem getD_append_len_succ (l : List β) (d e : β) (rest : List β) (x : β) :
    (l ++ d :: e :: rest).getD (l.length + 1) x = e := by
  induction l with
  | nil => simp [List.getD]
  | cons p l2 ih => simpa [List.getD] using ih

theorem getD_append_len_two (l : List β) (d e f : β) (rest : List β) (x : β) :
    (l ++ d :: e :: f :: rest).getD (l.length + 2) x = f := by
  induction l with
  | nil => simp [List.getD]
  | cons p l2 ih => simpa [List.getD] using ih

theorem getD_set_self (l : List β) (n : Nat) (d x : β) (h : n < l.length) :
    (l.set n d).getD n x = d := by
  induction l generalizing n with
  | nil => simp at h
  | cons p rest ih =>
      cases n with
      | zero => simp [List.set, List.getD]
      | succ m =>
          simp only [List.set, List.getD_cons_succ]
          exact ih m (by simpa using h)

/-- Record kept by the in-memory store per session id, the
`{ lastUpdate: Date.now(), data }` wrapper from `memorySessionStore.ts`.
The data object is heap-allocated, so the record holds a reference. -/
structure StoreRec : Type where
  lastUpdate : Nat
  dataRef : Nat
deriving DecidableEq, Repr

/-- Observable side effects of one request flow: cookie writes and cookie
destroys on the response (`cookie.write` / `cookie.destroy`), and the store
mutation operations (`store.set` / `store.merge` / `store.destroy`).
`store.get` is a read and is not logged. -/
inductive Effect : Type where
  | cookieWrite (sid : String)
  | cookieDestroy
  | storeSet (sid : String)
  | storeMerge (sid : String)
  | storeDestroy (sid : String)
deriving DecidableEq, Repr

/-- Whole-system state threaded through the embedding: the heap of JS data
objects, the memory store's `Map`, the uuid supply (`ids` applied to a
counter models successive `uuid()` results), the current clock value
(`Date.now()`), and the effect log. -/
structure St (α : Type) : Type where
  heap : List (JsMap α)
  store : List (String × StoreRec)
  ids : Nat → String
  idCount : Nat
  now : Nat
  log : List Effect

/-- Heap read through a reference. -/
def heapGet (s : St α) (r : Nat) : JsMap α := s.heap.getD r []

/-- In-place mutation of the object a reference points to (what a JS
`delete obj[k]` performed through an alias does). -/
def heapSet (s : St α) (r : Nat) (d : JsMap α) : St α :=
  { s with heap := s.heap.set r d }

/-- Allocation of a fresh JS object (an object literal in the source). -/
def allocObj (s : St α) (d : JsMap α) : Nat × St α :=
  (s.heap.length, { s with heap := s.heap ++ [d] })

/-- Memory store `get` (memorySessionStore.ts): on a hit it bumps the
record's `lastUpdate` to now, re-stores the wrapper, and returns the stored
`value.data` object itself (by reference); on a miss it returns `null`. -/
def store_get (s : St α) (sid : String) : Option Nat × St α :=
  match jsGet s.store sid with
  | some ent =>
      (some ent.dataRef, { s with store := mapSet s.store sid { ent with lastUpdate := s.now } })
  | none => (none, s)

/-- Memory store `set`: `store.set(sessionId, { lastUpdate: Date.now(), data })`;
stores the given object reference wholesale. -/
def store_set (s : St α) (sid : String) (r : Nat) : St α :=
  { s with
    store := mapSet s.store sid ⟨s.now, r⟩,
    log := s.log ++ [Effect.storeSet sid] }

/-- Memory store `merge`: builds `Object.assign({}, existing-data-or-{}, data)`
as a fresh object and stores it under the id with a fresh `lastUpdate`.  The
existing data is looked up with the raw `Map.get` (no `lastUpdate` bump). -/
def store_merge (s : St α) (sid : String) (r : Nat) : St α :=
  let old : JsMap α :=
    match jsGet s.store sid with
    | some ent => heapGet s ent.dataRef
    | none => []
  let res := allocObj s (jsAssign old (heapGet s r))
  { res.2 with
    store := mapSet res.2.store sid ⟨res.2.now, res.1⟩,
    log := res.2.log ++ [Effect.storeMerge sid] }

/-- Memory store `destroy`: `store.delete(sessionId)`. -/
def store_destroy (s : St α) (sid : String) : St α :=
  { s with
    store := mapDelete s.store sid,
    log := s.log ++ [Effect.storeDestroy sid] }

/-- Memory store `id`: `uuid()`; modelled by the supply `ids` at the current
counter (freshness of uuids enters theorems as hypotheses about `ids`). -/
def store_id (s : St α) : String × St α :=
  (s.ids s.idCount, { s with idCount := s.idCount + 1 })

/-- Cookie handler `write`: attaches a session cookie to the response. -/
def cookie_write (s : St α) (sid : String) : St α :=
  { s with log := s.log ++ [Effect.cookieWrite sid] }

/-- Cookie handler `destroy`: attaches an expired empty cookie to the
response. -/
def cookie_destroy (s : St α) : St α :=
  { s with log := s.log ++ [Effect.cookieDestroy] }

/-- Incoming request: `cookie.read(req)` yields `cookies[cookieName]`, a
string or `undefined`. -/
structure Request : Type where
  cookie : Option String

/-- JS truthiness of the cookie value: `undefined` and `""` are falsy. -/
def cookieTruthy : Option String → Bool
  | none => false
  | some c => !(c == "")

/-- Fresh-session branch of `getSessionId` (part_003 lines 226-236): mint a
new id; with persist intent, `store.set(sessionId, {})` then
`cookie.write(res, sessionId)`; without it, `cookie.destroy(res)` only when a
(truthy) cookie id was present on the request. -/
def freshSession (persist : Bool) (cookiePresent : Bool) (s : St α) : String × St α :=
  let minted := store_id s
  if persist then
    let obj := allocObj minted.2 []
    (minted.1, cookie_write (store_set obj.2 minted.1 obj.1) minted.1)
  else if cookiePresent then (minted.1, cookie_destroy minted.2)
  else (minted.1, minted.2)

/-- Session resolver `getSessionId` (part_003 lines 217-238), after the
overload arguments have been normalised to `(persistSession, req)`.
`if (!sessionId || !(await store.get(sessionId)))` short-circuits: with a
falsy cookie value the store is not consulted; a found data object is always
truthy in JS, so a hit returns the cookie id unchanged. -/
def getSessionId (persist : Bool) (req : Request) (s : St α) : String × St α :=
  match req.cookie with
  | none => freshSession persist false s
  | some cid =>
      if cid = "" then freshSession persist false s
      else
        match store_get s cid with
        | (some _, s1) => (cid, s1)
        | (none, s1) => freshSession persist true s1

/-- Session data read `getSessionData` (part_003 lines 257-259):
`await store.get(await getSessionId(a, b)) || {}`; returns a reference to the
stored data object on a hit (any object is truthy), or a fresh `{}`. -/
def getSessionData (req : Request) (s : St α) : Nat × St α :=
  let resolved := getSessionId false req s
  match store_get resolved.2 resolved.1 with
  | (some r, s2) => (r, s2)
  | (none, s2) => allocObj s2 []

/-- Session data merge `setSessionData` (part_003 lines 340-346): an omitted
data argument raises `No session data given` before anything else runs;
otherwise resolve with persist intent and `store.merge` the given object. -/
def setSessionData (req : Request) (dataArg : Option Nat) (s : St α) :
    Except String Unit × St α :=
  match dataArg with
  | none => (Except.error "No session data given", s)
  | some r =>
      let resolved := getSessionId true req s
      (Except.ok (), store_merge resolved.2 resolved.1 r)

/-- Session data overwrite `replaceSessionData` (part_003 lines 314-321):
an omitted data argument raises `No session data given`; otherwise resolve
with persist intent and `store.set` the given object. -/
def replaceSessionData (req : Request) (dataArg : Option Nat) (s : St α) :
    Except String Unit × St α :=
  match dataArg with
  | none => (Except.error "No session data given", s)
  | some r =>
      let resolved := getSessionId true req s
      (Except.ok (), store_set resolved.2 resolved.1 r)

/-- Calling `setSessionData` with a fresh object literal as the data argument
(the shape every external caller in the claims uses). -/
def setSessionDataObj (req : Request) (d : JsMap α) (s : St α) :
    Except String Unit × St α :=
  let obj := allocObj s d
  setSessionData req (some obj.1) obj.2

/-- Read-then-remove `pluckSessionProperty` (part_003 lines 278-295): a
missing or falsy (empty) `propertyName` raises `No propertyName given`;
otherwise read the session data, return `null` when the property is absent,
and otherwise `delete` it (mutating the data object through its reference)
and persist that object via `replaceSessionData`, returning the value. -/
def pluckSessionProperty (req : Request) (propertyName : Option String) (s : St α) :
    Except String (Option α) × St α :=
  match propertyName with
  | none => (Except.error "No propertyName given", s)
  | some p =>
      if p = "" then (Except.error "No propertyName given", s)
      else
        let got := getSessionData req s
        let d := heapGet got.2 got.1
        match jsGet d p with
        | none => (Except.ok none, got.2)
        | some v =>
            let s2 := heapSet got.2 got.1 (jsDelete d p)
            let rep := replaceSessionData req (some got.1) s2
            match rep.1 with
            | Except.ok _ => (Except.ok (some v), rep.2)
            | Except.error e => (Except.error e, rep.2)

/-- CSRF validation `validateCSRFToken` (part_003 lines 403-410): read the
session data, compare its `csrfToken` field with the supplied token
(`undefined === token` is false for an actual token), `delete` the field
(mutating the data object in place, hence also the stored record when the
session was live), persist the object back via `setSessionData` (merge), and
return the comparison result. -/
def validateCSRFToken [DecidableEq α] (req : Request) (token : α) (s : St α) :
    Bool × St α :=
  let got := getSessionData req s
  let d := heapGet got.2 got.1
  let wasValid : Bool :=
    match jsGet d "csrfToken" with
    | some v => decide (v = token)
    | none => false
  let s2 := heapSet got.2 got.1 (jsDelete d "csrfToken")
  let set := setSessionData req (some got.1) s2
  (wasValid, set.2)

/-- One run of the expiry sweep body (memorySessionStore.ts lines 19-25) at
clock value `t`: delete every record with `lastUpdate < t - maxAge`.
Truncated natural subtraction agrees with the JS comparison against a
possibly negative `Date.now() - maxSessionAgeMS` because timestamps are
nonnegative. -/
def sweep (s : St α) (t maxAge : Nat) : St α :=
  { s with store := s.store.filter (fun p => !(decide (p.2.lastUpdate < t - maxAge))) }

/-- Applying the sweeps scheduled at the given tick times, oldest first. -/
def applySweeps (s : St α) (maxAge : Nat) (ts : List Nat) : St α :=
  ts.foldl (fun s2 t => sweep s2 t maxAge) s

/-- Tick times of `setInterval(sweep, interval)` started at clock value `c`
that fire at or before clock value `t`: `c + interval, c + 2*interval, …`. -/
def sweepTimes (c interval t : Nat) : List Nat :=
  (List.range ((t - c) / interval)).map (fun j => c + (j + 1) * interval)

theorem store_get_hit {s : St α} {sid : String} {ent : StoreRec}
    (h : jsGet s.store sid = some ent) :
    store_get s sid =
      (some ent.dataRef, { s with store := mapSet s.store sid ⟨s.now, ent.dataRef⟩ }) := by
  simp [store_get, h]

theorem store_get_miss {s : St α} {sid : String} (h : jsGet s.store sid = none) :
    store_get s sid = (none, s) := by
  simp [store_get, h]

theorem getSessionId_live {s : St α} {req : Request} {sid : String} {ent : StoreRec}
    (hc : req.cookie = some sid) (hs : sid ≠ "") (h : jsGet s.store sid = some ent)
    (persist : Bool) :
    getSessionId persist req s =
      (sid, { s with store := mapSet s.store sid ⟨s.now, ent.dataRef⟩ }) := by
  simp [getSessionId, hc, hs, store_get, h]

theorem getSessionData_live {s : St α} {req : Request} {sid : String} {ent : StoreRec}
    (hc : req.cookie = some sid) (hs : sid ≠ "") (h : jsGet s.store sid = some ent) :
    getSessionData req s =
      (ent.dataRef, { s with store := mapSet s.store sid ⟨s.now, ent.dataRef⟩ }) := by
  simp [getSessionData, getSessionId_live hc hs h false, store_get,
    jsGet_mapSet_self, mapSet_mapSet]

theorem getSessionId_nocookie_read {s : St α} {req : Request} (hc : req.cookie = none) :
    getSessionId false req s = (s.ids s.idCount, { s with idCount := s.idCount + 1 }) := by
  simp [getSessionId, hc, freshSession, store_id]

theorem getSessionId_emptycookie_read {s : St α} {req : Request}
    (hc : req.cookie = some "") :
    getSessionId false req s = (s.ids s.idCount, { s with idCount := s.idCount + 1 }) := by
  simp [getSessionId, hc, freshSession, store_id]

theorem getSessionId_stale {s : St α} {req : Request} {cid : String}
    (hc : req.cookie = some cid) (hcne : cid ≠ "") (h : jsGet s.store cid = none) :
    getSessionId false req s =
      (s.ids s.idCount,
       { s with idCount := s.idCount + 1, log := s.log ++ [Effect.cookieDestroy] }) := by
  simp [getSessionId, hc, hcne, store_get, h, freshSession, store_id, cookie_destroy]

theorem freshSession_persist (s : St α) :
    freshSession true c s =
      (s.ids s.idCount,
       { s with
          idCount := s.idCount + 1,
          heap := s.heap ++ [[]],
          store := mapSet s.store (s.ids s.idCount) ⟨s.now, s.heap.length⟩,
          log := s.log ++ [Effect.storeSet (s.ids s.idCount),
                           Effect.cookieWrite (s.ids s.idCount)] }) := by
  simp [freshSession, store_id, allocObj, store_set, cookie_write]

/-- C9. Input-validation errors are raised, never defaulted: with the data
argument omitted, `setSessionData` and `replaceSessionData` raise
`No session data given`, and with the propertyName argument omitted,
`pluckSessionProperty` raises `No propertyName given`; in each case the error
is raised before any resolution runs, so the state (store, heap, effect log)
is untouched. -/
theorem C9_input_errors (req : Request) (s : St α) :
    setSessionData req none s = (Except.error "No session data given", s) ∧
    replaceSessionData req none s = (Except.error "No session data given", s) ∧
    pluckSessionProperty req none s = (Except.error "No propertyName given", s) :=
  ⟨rfl, rfl, rfl⟩

/-- C2. Stale-cookie, read-only resolution: a request whose cookie carries a
(non-empty) id with no live store record, resolved without persist intent,
yields a freshly minted id different from the cookie id, and the only effect
is a cookie-clearing `cookie.destroy` — no `cookie.write`, and the store and
heap are untouched. -/
theorem C2_stale_cookie_readonly {s : St α} {req : Request} {cid : String}
    (hc : req.cookie = some cid) (hcne : cid ≠ "")
    (hmiss : jsGet s.store cid = none) (hfresh : s.ids s.idCount ≠ cid) :
    (getSessionId false req s).1 ≠ cid ∧
    getSessionId false req s =
      (s.ids s.idCount,
       { s with idCount := s.idCount + 1, log := s.log ++ [Effect.cookieDestroy] }) := by
  refine ⟨?_, getSessionId_stale hc hcne hmiss⟩
  rw [getSessionId_stale hc hcne hmiss]
  exact hfresh

/-- C3. Read-only data access mutates nothing: on a request with no session
cookie (and a uuid supply fresh for the store), `getSessionData` returns the
empty object, the store mapping is unchanged, and the effect log is unchanged
(no cookie write, no cookie destroy, no store write). -/
theorem C3_get_readonly {s : St α} {req : Request} (hc : req.cookie = none)
    (hmiss : jsGet s.store (s.ids s.idCount) = none) :
    heapGet (getSessionData req s).2 (getSessionData req s).1 = ([] : JsMap α) ∧
    (getSessionData req s).2.store = s.store ∧
    (getSessionData req s).2.log = s.log := by
  have h1 := @getSessionId_nocookie_read _ s req hc
  simp [getSessionData, h1, store_get, hmiss, allocObj, heapGet, getD_append_self]

theorem setSessionDataObj_nocookie {s : St α} {req : Request} (D : JsMap α)
    (hc : req.cookie = none) :
    setSessionDataObj req D s =
      (Except.ok (),
       { s with
          idCount := s.idCount + 1,
          heap := s.heap ++ [D, [], D],
          store := mapSet s.store (s.ids s.idCount) ⟨s.now, s.heap.length + 2⟩,
          log := s.log ++ [Effect.storeSet (s.ids s.idCount),
                           Effect.cookieWrite (s.ids s.idCount),
                           Effect.storeMerge (s.ids s.idCount)] }) := by
  simp [setSessionDataObj, allocObj, setSessionData, getSessionId, hc, freshSession,
    store_id, store_set, cookie_write, store_merge, jsGet_mapSet_self, mapSet_mapSet,
    heapGet, getD_append_len, getD_append_len_succ, jsAssign_nil_left]
  rw [List.getElem_append_right (by simp), List.getElem_append_right (by simp)]
  simp [jsAssign_nil_left]

/-- Store-write effects are the `set` and `merge` (and `destroy`) operations
against the session store. -/
def isStoreWrite : Effect → Bool
  | Effect.storeSet _ => true
  | Effect.storeMerge _ => true
  | Effect.storeDestroy _ => true
  | _ => false

/-- Concrete initial state used by the closed counterexamples and witnesses:
empty store, empty heap, a uuid supply, clock at 1000. -/
def sampleSt : St String :=
  { heap := [], store := [], ids := fun n => "uuid" ++ toString n,
    idCount := 0, now := 1000, log := [] }

/-- C4 counterexample. On a brand-new request (no cookie), `setSessionData`
performs TWO store writes, not one: resolving with persist intent runs
`store.set(sessionId, {})`, and the call itself then runs
`store.merge(sessionId, data)`.  Concretely, from an empty state the effect
log contains two store set/merge effects, contradicting the claimed
"exactly one cookie write and one store set/merge". -/
theorem C4_counterexample :
    ((setSessionDataObj (Request.mk none) [("test", "hello")] sampleSt).2.log.countP
      isStoreWrite) = 2 := by
  rw [setSessionDataObj_nocookie _ rfl]
  rfl

/-- C4 (amended). Lazy session materialization on write: on a request with no
session cookie, `setSessionData(request, D)` succeeds and causes exactly one
cookie write together with exactly two store writes — a `store.set` creating
the empty record for the minted id, followed by a `store.merge` of `D` into
it — and a subsequent `getSessionData` presenting the resulting cookie id
returns data equal to `D`. -/
theorem C4_lazy_materialization {s : St α} {req : Request} (D : JsMap α)
    (hc : req.cookie = none) (hne : s.ids s.idCount ≠ "") :
    (setSessionDataObj req D s).1 = Except.ok () ∧
    (setSessionDataObj req D s).2.log =
      s.log ++ [Effect.storeSet (s.ids s.idCount), Effect.cookieWrite (s.ids s.idCount),
                Effect.storeMerge (s.ids s.idCount)] ∧
    heapGet (getSessionData (Request.mk (some (s.ids s.idCount)))
               (setSessionDataObj req D s).2).2
            (getSessionData (Request.mk (some (s.ids s.idCount)))
               (setSessionDataObj req D s).2).1 = D := by
  rw [setSessionDataObj_nocookie D hc]
  refine ⟨rfl, rfl, ?_⟩
  rw [@getSessionData_live _ _ _ _ ⟨s.now, s.heap.length + 2⟩ rfl hne (jsGet_mapSet_self _ _ _)]
  simp only [heapGet]
  rw [List.getD_eq_getElem _ _ (by simp), List.getElem_append_right (by simp)]
  simp

theorem replaceSessionData_live {s : St α} {req : Request} {sid : String} {ent : StoreRec}
    (hc : req.cookie = some sid) (hs : sid ≠ "") (h : jsGet s.store sid = some ent)
    (r : Nat) :
    replaceSessionData req (some r) s =
      (Except.ok (),
       { s with store := mapSet s.store sid ⟨s.now, r⟩,
                log := s.log ++ [Effect.storeSet sid] }) := by
  simp [replaceSessionData, getSessionId_live hc hs h, store_set, mapSet_mapSet]

theorem pluck_live_present {s : St α} {req : Request} {sid : String} {ent : StoreRec}
    (hc : req.cookie = some sid) (hs : sid ≠ "") (h : jsGet s.store sid = some ent)
    {k : String} (hk : k ≠ "") {v : α}
    (hv : jsGet (heapGet s ent.dataRef) k = some v) :
    pluckSessionProperty req (some k) s =
      (Except.ok (some v),
       { s with
          heap := s.heap.set ent.dataRef (jsDelete (heapGet s ent.dataRef) k),
          store := mapSet s.store sid ⟨s.now, ent.dataRef⟩,
          log := s.log ++ [Effect.storeSet sid] }) := by
  simp [heapGet] at hv
  simp [pluckSessionProperty, hk, getSessionData_live hc hs h, heapGet, heapSet, hv,
    replaceSessionData, getSessionId, hc, hs, store_get, jsGet_mapSet_self, store_set,
    mapSet_mapSet]

theorem pluck_live_absent {s : St α} {req : Request} {sid : String} {ent : StoreRec}
    (hc : req.cookie = some sid) (hs : sid ≠ "") (h : jsGet s.store sid = some ent)
    {k : String} (hk : k ≠ "")
    (hnone : jsGet (heapGet s ent.dataRef) k = none) :
    pluckSessionProperty req (some k) s =
      (Except.ok none, { s with store := mapSet s.store sid ⟨s.now, ent.dataRef⟩ }) := by
  simp [heapGet] at hnone
  simp [pluckSessionProperty, hk, getSessionData_live hc hs h, heapGet, hnone]

/-- Concrete state for the C5 counterexample: one live session `sid1` whose
data object maps the empty-string key to `"hello"`. -/
def sampleStC5 : St String :=
  { heap := [[("", "hello")]], store := [("sid1", ⟨1000, 0⟩)],
    ids := fun n => "uuid" ++ toString n, idCount := 0, now := 1000, log := [] }

/-- C5 counterexample. A session's data can map the empty-string key to a
value (the empty string is a legal JS object key), but
`pluckSessionProperty(request, "")` raises `No propertyName given` — the
source checks `if (!propertyName)` and `""` is falsy — instead of returning
the stored value as the claim demands for every key. -/
theorem C5_counterexample :
    jsGet (heapGet sampleStC5 0) "" = some "hello" ∧
    (pluckSessionProperty (Request.mk (some "sid1")) (some "") sampleStC5).1 =
      Except.error "No propertyName given" :=
  ⟨rfl, rfl⟩

/-- C5 (amended). Pluck is read-then-remove for every NON-EMPTY key: on a
live session whose data maps a non-empty key `k` to `v`,
`pluckSessionProperty(request, k)` returns `v` and persists the remaining
data without `k` (one `store.set`, the data object mutated in place and
re-stored), so an immediately following pluck of `k` returns `null`; on a
live session whose data lacks `k`, it returns `null` and performs no store
write and no cookie write (store data, heap and effect log unchanged; only
the read-side `lastUpdate` bump happens).  An empty-string key is instead
rejected as a missing propertyName (see the counterexample). -/
theorem C5_pluck {s : St α} {req : Request} {sid : String} {ent : StoreRec}
    (hc : req.cookie = some sid) (hs : sid ≠ "") (h : jsGet s.store sid = some ent)
    (hr : ent.dataRef < s.heap.length) {k : String} (hk : k ≠ "") :
    (∀ v : α, jsGet (heapGet s ent.dataRef) k = some v →
      (pluckSessionProperty req (some k) s).1 = Except.ok (some v) ∧
      (pluckSessionProperty req (some k) s).2.log = s.log ++ [Effect.storeSet sid] ∧
      jsGet (pluckSessionProperty req (some k) s).2.store sid = some ⟨s.now, ent.dataRef⟩ ∧
      heapGet (pluckSessionProperty req (some k) s).2 ent.dataRef =
        jsDelete (heapGet s ent.dataRef) k ∧
      (pluckSessionProperty req (some k) ((pluckSessionProperty req (some k) s).2)).1 =
        Except.ok none) ∧
    (jsGet (heapGet s ent.dataRef) k = none →
      pluckSessionProperty req (some k) s =
        (Except.ok none, { s with store := mapSet s.store sid ⟨s.now, ent.dataRef⟩ })) := by
  constructor
  · intro v hv
    have h1 := pluck_live_present hc hs h hk hv
    have hlive2 : jsGet (pluckSessionProperty req (some k) s).2.store sid =
        some ⟨s.now, ent.dataRef⟩ := by
      rw [h1]
      exact jsGet_mapSet_self _ _ _
    have hheap2 : heapGet (pluckSessionProperty req (some k) s).2 ent.dataRef =
        jsDelete (heapGet s ent.dataRef) k := by
      rw [h1]
      simp only [heapGet]
      exact getD_set_self _ _ _ _ hr
    refine ⟨by rw [h1], by rw [h1], hlive2, hheap2, ?_⟩
    have hnone2 : jsGet (heapGet (pluckSessionProperty req (some k) s).2 ent.dataRef) k =
        none := by
      rw [hheap2]
      exact jsGet_jsDelete_self _ _
    rw [pluck_live_absent hc hs hlive2 hk hnone2]
  · intro hnone
    exact pluck_live_absent hc hs h hk hnone

theorem setSessionData_live {s : St α} {req : Request} {sid : String} {ent : StoreRec}
    (hc : req.cookie = some sid) (hs : sid ≠ "") (h : jsGet s.store sid = some ent)
    (r : Nat) :
    setSessionData req (some r) s =
      (Except.ok (),
       { s with
          heap := s.heap ++ [jsAssign (heapGet s ent.dataRef) (heapGet s r)],
          store := mapSet s.store sid ⟨s.now, s.heap.length⟩,
          log := s.log ++ [Effect.storeMerge sid] }) := by
  simp [setSessionData, getSessionId_live hc hs h, store_merge, jsGet_mapSet_self,
    heapGet, allocObj, mapSet_mapSet]

theorem validateCSRFToken_live [DecidableEq α] {s : St α} {req : Request} {sid : String}
    {ent : StoreRec}
    (hc : req.cookie = some sid) (hs : sid ≠ "") (h : jsGet s.store sid = some ent)
    (hr : ent.dataRef < s.heap.length) (token : α) :
    validateCSRFToken req token s =
      ((match jsGet (heapGet s ent.dataRef) "csrfToken" with
        | some v => decide (v = token)
        | none => false),
       { s with
          heap := (s.heap.set ent.dataRef (jsDelete (heapGet s ent.dataRef) "csrfToken"))
                  ++ [jsAssign (jsDelete (heapGet s ent.dataRef) "csrfToken")
                               (jsDelete (heapGet s ent.dataRef) "csrfToken")],
          store := mapSet s.store sid ⟨s.now, s.heap.length⟩,
          log := s.log ++ [Effect.storeMerge sid] }) := by
  have hset : (s.heap.set ent.dataRef (jsDelete (heapGet s ent.dataRef) "csrfToken")).getD
      ent.dataRef [] = jsDelete (heapGet s ent.dataRef) "csrfToken" :=
    getD_set_self _ _ _ _ hr
  simp [heapGet] at hset
  simp [validateCSRFToken, getSessionData_live hc hs h, heapGet, heapSet,
    setSessionData, getSessionId, hc, hs, store_get, jsGet_mapSet_self, store_merge,
    allocObj, mapSet_mapSet, hset]

/-- C1. Single-use CSRF tokens (with the default in-memory store): on a live
session, `validateCSRFToken` returns whether the stored `csrfToken` equals
the supplied token, removes the `csrfToken` field from the session data and
persists that removal regardless of the outcome — because `store.get` hands
out the stored data object by reference, the `delete` mutates the stored
record before `setSessionData` merges it back — so after one check (pass or
fail) a further `validateCSRFToken` on the same session returns `false` for
every supplied token. -/
theorem C1_csrf_single_use [DecidableEq α] {s : St α} {req : Request} {sid : String}
    {ent : StoreRec}
    (hc : req.cookie = some sid) (hs : sid ≠ "") (h : jsGet s.store sid = some ent)
    (hr : ent.dataRef < s.heap.length) (hn : keysNodup (heapGet s ent.dataRef))
    (token : α) :
    ((validateCSRFToken req token s).1 = true ↔
       jsGet (heapGet s ent.dataRef) "csrfToken" = some token) ∧
    (jsGet (validateCSRFToken req token s).2.store sid =
       some ⟨s.now, s.heap.length⟩ ∧
     heapGet (validateCSRFToken req token s).2 s.heap.length =
       jsDelete (heapGet s ent.dataRef) "csrfToken") ∧
    (∀ t2 : α, (validateCSRFToken req t2 ((validateCSRFToken req token s).2)).1 = false) := by
  have h1 := validateCSRFToken_live hc hs h hr token
  have hD : jsAssign (jsDelete (heapGet s ent.dataRef) "csrfToken")
      (jsDelete (heapGet s ent.dataRef) "csrfToken") =
      jsDelete (heapGet s ent.dataRef) "csrfToken" :=
    jsAssign_self (keysNodup_jsDelete _ hn)
  rw [hD] at h1
  have hstore : jsGet (validateCSRFToken req token s).2.store sid =
      some ⟨s.now, s.heap.length⟩ := by
    rw [h1]
    exact jsGet_mapSet_self _ _ _
  have hheap : heapGet (validateCSRFToken req token s).2 s.heap.length =
      jsDelete (heapGet s ent.dataRef) "csrfToken" := by
    rw [h1]
    simp only [heapGet]
    rw [show s.heap.length =
        (s.heap.set ent.dataRef (jsDelete (heapGet s ent.dataRef) "csrfToken")).length
      from (List.length_set _ _ _).symm]
    exact getD_append_self _ _ _
  refine ⟨?_, ⟨hstore, hheap⟩, ?_⟩
  · rw [h1]
    cases hcase : jsGet (heapGet s ent.dataRef) "csrfToken" with
    | none => simp [hcase]
    | some v => simp [hcase]
  · intro t2
    have hr2 : (StoreRec.mk s.now s.heap.length).dataRef <
        (validateCSRFToken req token s).2.heap.length := by
      rw [h1]
      simp
    have h2 := validateCSRFToken_live hc hs hstore hr2 t2
    rw [h2]
    have hnone : jsGet (heapGet (validateCSRFToken req token s).2
        (StoreRec.mk s.now s.heap.length).dataRef) "csrfToken" = none := by
      have := hheap
      simp only [StoreRec.mk] at this ⊢
      rw [this]
      exact jsGet_jsDelete_self _ _
    rw [hnone]

theorem validateCSRFToken_dead_nocookie [DecidableEq α] {s : St α} {req : Request}
    (hc : req.cookie = none) (hm1 : jsGet s.store (s.ids s.idCount) = none) (token : α) :
    validateCSRFToken req token s =
      (false,
       { s with
          idCount := s.idCount + 2,
          heap := ((s.heap ++ [[]]).set s.heap.length []) ++ [[], []],
          store := mapSet s.store (s.ids (s.idCount + 1)) ⟨s.now, s.heap.length + 2⟩,
          log := s.log ++ [Effect.storeSet (s.ids (s.idCount + 1)),
                           Effect.cookieWrite (s.ids (s.idCount + 1)),
                           Effect.storeMerge (s.ids (s.idCount + 1))] }) := by
  simp [validateCSRFToken, getSessionData, getSessionId, hc, freshSession, store_id,
    allocObj, store_get, hm1, heapGet, heapSet, setSessionData, store_merge, store_set,
    cookie_write, jsGet_mapSet_self, mapSet_mapSet, jsAssign_nil_left, jsDelete,
    List.getElem?_append, List.getElem?_set, jsGet]
  rw [List.getElem_append_right (by simp), List.getElem_append_right (by simp)]
  simp [jsAssign_nil_left]

theorem validateCSRFToken_dead_emptycookie [DecidableEq α] {s : St α} {req : Request}
    (hc : req.cookie = some "") (hm1 : jsGet s.store (s.ids s.idCount) = none) (token : α) :
    validateCSRFToken req token s =
      (false,
       { s with
          idCount := s.idCount + 2,
          heap := ((s.heap ++ [[]]).set s.heap.length []) ++ [[], []],
          store := mapSet s.store (s.ids (s.idCount + 1)) ⟨s.now, s.heap.length + 2⟩,
          log := s.log ++ [Effect.storeSet (s.ids (s.idCount + 1)),
                           Effect.cookieWrite (s.ids (s.idCount + 1)),
                           Effect.storeMerge (s.ids (s.idCount + 1))] }) := by
  simp [validateCSRFToken, getSessionData, getSessionId, hc, freshSession, store_id,
    allocObj, store_get, hm1, heapGet, heapSet, setSessionData, store_merge, store_set,
    cookie_write, jsGet_mapSet_self, mapSet_mapSet, jsAssign_nil_left, jsDelete,
    List.getElem?_append, List.getElem?_set, jsGet]
  rw [List.getElem_append_right (by simp), List.getElem_append_right (by simp)]
  simp [jsAssign_nil_left]

theorem validateCSRFToken_dead_stale [DecidableEq α] {s : St α} {req : Request}
    {cid : String} (hc : req.cookie = some cid) (hcne : cid ≠ "")
    (hmiss : jsGet s.store cid = none)
    (hm1 : jsGet s.store (s.ids s.idCount) = none) (token : α) :
    validateCSRFToken req token s =
      (false,
       { s with
          idCount := s.idCount + 2,
          heap := ((s.heap ++ [[]]).set s.heap.length []) ++ [[], []],
          store := mapSet s.store (s.ids (s.idCount + 1)) ⟨s.now, s.heap.length + 2⟩,
          log := s.log ++ [Effect.cookieDestroy,
                           Effect.storeSet (s.ids (s.idCount + 1)),
                           Effect.cookieWrite (s.ids (s.idCount + 1)),
                           Effect.storeMerge (s.ids (s.idCount + 1))] }) := by
  simp [validateCSRFToken, getSessionData, getSessionId, hc, hcne, freshSession, store_id,
    allocObj, store_get, hm1, hmiss, heapGet, heapSet, setSessionData, store_merge,
    store_set, cookie_write, cookie_destroy, jsGet_mapSet_self, mapSet_mapSet,
    jsAssign_nil_left, jsDelete, List.getElem?_append, List.getElem?_set, jsGet]
  rw [List.getElem_append_right (by simp), List.getElem_append_right (by simp)]
  simp [jsAssign_nil_left]

/-- C10. Failed CSRF validation is not state-preserving: on a request with no
live session — no cookie, an empty-cookie value, or a cookie id with no
backing record — `validateCSRFToken` returns `false`, and as a side effect it
mints a fresh id (the second uuid drawn in the call), writes a store record
for it (holding the empty data object), and writes a session cookie for it,
establishing a persisted session where none existed. -/
theorem C10_validate_creates_session [DecidableEq α] {s : St α} {req : Request}
    (hcm : ∀ cid, req.cookie = some cid → jsGet s.store cid = none)
    (hm1 : jsGet s.store (s.ids s.idCount) = none)
    (hm2 : jsGet s.store (s.ids (s.idCount + 1)) = none) (token : α) :
    (validateCSRFToken req token s).1 = false ∧
    jsGet s.store (s.ids (s.idCount + 1)) = none ∧
    jsGet (validateCSRFToken req token s).2.store (s.ids (s.idCount + 1)) =
      some ⟨s.now, s.heap.length + 2⟩ ∧
    heapGet (validateCSRFToken req token s).2 (s.heap.length + 2) = [] ∧
    (∃ delta, (validateCSRFToken req token s).2.log = s.log ++ delta ∧
      Effect.cookieWrite (s.ids (s.idCount + 1)) ∈ delta) := by
  have hheap : ∀ h2 : List (JsMap α), h2 = ((s.heap ++ [[]]).set s.heap.length []) ++ [[], []] →
      h2.getD (s.heap.length + 2) [] = [] := by
    intro h2 hh
    subst hh
    rw [List.getD_eq_getElem _ _ (by simp), List.getElem_append_right (by simp)]
    simp
  rcases hreq : req.cookie with _ | cid
  · have h1 := @validateCSRFToken_dead_nocookie _ _ s req hreq hm1 token
    rw [h1]
    refine ⟨rfl, hm2, jsGet_mapSet_self _ _ _, hheap _ rfl, ?_⟩
    exact ⟨_, rfl, by simp⟩
  · by_cases hce : cid = ""
    · subst hce
      have h1 := @validateCSRFToken_dead_emptycookie _ _ s req hreq hm1 token
      rw [h1]
      refine ⟨rfl, hm2, jsGet_mapSet_self _ _ _, hheap _ rfl, ?_⟩
      exact ⟨_, rfl, by simp⟩
    · have h1 := @validateCSRFToken_dead_stale _ _ s req cid hreq hce (hcm cid hreq) hm1 token
      rw [h1]
      refine ⟨rfl, hm2, jsGet_mapSet_self _ _ _, hheap _ rfl, ?_⟩
      exact ⟨_, rfl, by simp⟩

theorem jsGet_filter_keep {l : List (String × β)} {k : String} {v : β}
    {p : String × β → Bool} (h : jsGet l k = some v) (hp : p (k, v) = true) :
    jsGet (l.filter p) k = some v := by
  induction l with
  | nil => simp [jsGet] at h
  | cons q rest ih =>
      obtain ⟨k2, v2⟩ := q
      by_cases h2 : k2 = k
      · subst h2
        simp only [jsGet, if_pos rfl] at h
        obtain rfl : v2 = v := by injection h
        simp [List.filter_cons, hp, jsGet]
      · simp only [jsGet, if_neg h2] at h
        by_cases hq : p (k2, v2)
        · simp [List.filter_cons, hq, jsGet, h2, ih h]
        · simp [List.filter_cons, hq, ih h]

theorem jsGet_filter_none {l : List (String × β)} {k : String} {p : String × β → Bool}
    (h : jsGet l k = none) : jsGet (l.filter p) k = none := by
  induction l with
  | nil => simp [jsGet]
  | cons q rest ih =>
      obtain ⟨k2, v2⟩ := q
      by_cases h2 : k2 = k
      · subst h2
        simp [jsGet] at h
      · simp only [jsGet, if_neg h2] at h
        by_cases hq : p (k2, v2)
        · simp [List.filter_cons, hq, jsGet, h2, ih h]
        · simp [List.filter_cons, hq, ih h]

theorem jsGet_eq_none_of_not_mem {l : List (String × β)} {k : String}
    (h : k ∉ l.map Prod.fst) : jsGet l k = none := by
  induction l with
  | nil => simp [jsGet]
  | cons q rest ih =>
      obtain ⟨k2, v2⟩ := q
      simp only [List.map_cons, List.mem_cons] at h
      push_neg at h
      have h2 : k2 ≠ k := fun hh => h.1 hh.symm
      simp [jsGet, h2, ih h.2]

theorem jsGet_filter_kill {l : List (String × β)} {k : String} {v : β}
    {p : String × β → Bool} (hn : (l.map Prod.fst).Nodup)
    (h : jsGet l k = some v) (hp : p (k, v) = false) :
    jsGet (l.filter p) k = none := by
  induction l with
  | nil => simp [jsGet] at h
  | cons q rest ih =>
      obtain ⟨k2, v2⟩ := q
      simp only [List.map_cons, List.nodup_cons] at hn
      by_cases h2 : k2 = k
      · subst h2
        simp only [jsGet, if_pos rfl] at h
        obtain rfl : v2 = v := by injection h
        simp only [List.filter_cons, hp, if_neg Bool.false_ne_true]
        exact jsGet_filter_none (jsGet_eq_none_of_not_mem hn.1)
      · simp only [jsGet, if_neg h2] at h
        by_cases hq : p (k2, v2)
        · simp [List.filter_cons, hq, jsGet, h2, ih hn.2 h]
        · simp [List.filter_cons, hq, ih hn.2 h]

theorem applySweeps_keep {s : St α} {sid : String} {ent : StoreRec} {maxAge : Nat}
    {ts : List Nat} (h : jsGet s.store sid = some ent)
    (hall : ∀ t ∈ ts, ¬(ent.lastUpdate < t - maxAge)) :
    jsGet (applySweeps s maxAge ts).store sid = some ent := by
  induction ts generalizing s with
  | nil => exact h
  | cons t ts ih =>
      have hkeep : jsGet (sweep s t maxAge).store sid = some ent := by
        refine jsGet_filter_keep h ?_
        simp [hall t (List.mem_cons_self t ts)]
      exact ih hkeep (fun t2 ht2 => hall t2 (List.mem_cons_of_mem t ht2))

theorem applySweeps_absent {s : St α} {sid : String} {maxAge : Nat} {ts : List Nat}
    (h : jsGet s.store sid = none) :
    jsGet (applySweeps s maxAge ts).store sid = none := by
  induction ts generalizing s with
  | nil => exact h
  | cons t ts ih => exact ih (jsGet_filter_none h)

theorem applySweeps_kill {s : St α} {sid : String} {ent : StoreRec} {maxAge : Nat}
    {ts : List Nat} (hn : (s.store.map Prod.fst).Nodup)
    (h : jsGet s.store sid = some ent)
    (hex : ∃ t ∈ ts, ent.lastUpdate < t - maxAge) :
    jsGet (applySweeps s maxAge ts).store sid = none := by
  induction ts generalizing s with
  | nil =>
      obtain ⟨t, ht, _⟩ := hex
      simp at ht
  | cons t ts ih =>
      by_cases hkill : ent.lastUpdate < t - maxAge
      · have h2 : jsGet (sweep s t maxAge).store sid = none :=
          jsGet_filter_kill hn h (by simp [hkill])
        show jsGet (applySweeps (sweep s t maxAge) maxAge ts).store sid = none
        exact applySweeps_absent h2
      · have hn2 : (((sweep s t maxAge).store).map Prod.fst).Nodup :=
          hn.sublist (List.Sublist.map Prod.fst (List.filter_sublist _))
        have h2 : jsGet (sweep s t maxAge).store sid = some ent := by
          refine jsGet_filter_keep h ?_
          simp [hkill]
        obtain ⟨t2, ht2, hk2⟩ := hex
        rcases List.mem_cons.mp ht2 with rfl | ht2
        · exact absurd hk2 hkill
        · exact ih hn2 h2 ⟨t2, ht2, hk2⟩

/-- C6. Sliding expiration on read: on a hit, the store's `get` returns (a
reference to) the record's data object, leaves the heap untouched, and bumps
the record's `lastUpdate` to the current clock; consequently the record
survives any sweep run at a time up to `maxSessionAge` after the read. -/
theorem C6_sliding_get {s : St α} {sid : String} {ent : StoreRec}
    (h : jsGet s.store sid = some ent) (maxAge : Nat) :
    (store_get s sid).1 = some ent.dataRef ∧
    (store_get s sid).2.heap = s.heap ∧
    jsGet (store_get s sid).2.store sid = some ⟨s.now, ent.dataRef⟩ ∧
    (∀ t, t ≤ s.now + maxAge →
      jsGet (sweep ((store_get s sid).2) t maxAge).store sid =
        some ⟨s.now, ent.dataRef⟩) := by
  rw [store_get_hit h]
  refine ⟨rfl, rfl, jsGet_mapSet_self _ _ _, fun t ht => ?_⟩
  refine jsGet_filter_keep (jsGet_mapSet_self _ _ _) ?_
  simp only [Bool.not_eq_true']
  simp only [decide_eq_false_iff_not]
  omega

/-- C7. Bounded expiry window: a record written at time `T` (with the sweep
timer started at `c ≤ T`) and never touched afterwards is still present at
every query time strictly before `T + maxSessionAge`, and is absent at every
query time at or after `T + maxSessionAge + sweepInterval`, after the sweeps
scheduled up to that time have run. -/
theorem C7_expiry_window {s : St α} {sid : String} {r T maxAge interval c : Nat}
    (hn : (s.store.map Prod.fst).Nodup)
    (h : jsGet s.store sid = some ⟨T, r⟩)
    (hc : c ≤ T) (hI : 0 < interval) :
    (∀ t, t < T + maxAge →
      jsGet (applySweeps s maxAge (sweepTimes c interval t)).store sid =
        some ⟨T, r⟩) ∧
    (∀ t, T + maxAge + interval ≤ t →
      jsGet (applySweeps s maxAge (sweepTimes c interval t)).store sid = none) := by
  constructor
  · intro t ht
    refine applySweeps_keep h ?_
    intro t2 ht2
    simp only [sweepTimes, List.mem_map, List.mem_range] at ht2
    obtain ⟨j, hj, rfl⟩ := ht2
    have h1 : (j + 1) * interval ≤ ((t - c) / interval) * interval :=
      Nat.mul_le_mul_right _ (by omega)
    have h2 : ((t - c) / interval) * interval ≤ t - c := Nat.div_mul_le_self _ _
    simp only [StoreRec.lastUpdate]
    omega
  · intro t ht
    refine applySweeps_kill hn h ⟨c + ((T + maxAge - c) / interval + 1) * interval, ?_, ?_⟩
    · simp only [sweepTimes, List.mem_map, List.mem_range]
      refine ⟨(T + maxAge - c) / interval, ?_, rfl⟩
      have h1 : ((T + maxAge - c) / interval) * interval ≤ T + maxAge - c :=
        Nat.div_mul_le_self _ _
      have h2 : ((T + maxAge - c) / interval + 1) ≤ (t - c) / interval := by
        rw [Nat.le_div_iff_mul_le hI]
        rw [Nat.succ_mul]
        omega
      omega
    · simp only [StoreRec.lastUpdate]
      have e1 : (T + maxAge - c) / interval * interval + (T + maxAge - c) % interval =
          T + maxAge - c := Nat.div_add_mod' _ _
      have e2 : (T + maxAge - c) % interval < interval := Nat.mod_lt _ hI
      rw [Nat.succ_mul]
      omega

/-- C8. Merge on an unknown id equals set: for an id with no record,
`store.merge(i, D)` returns normally (the absent branch supplies `{}`) and
leaves the store observationally as `store.set(i, D)` does — a following
`store.get(i)` returns exactly `D`, and every other id's record is
unchanged — as is the case after `store.set(i, D)`. -/
theorem C8_merge_unknown {s : St α} {i : String} (hmiss : jsGet s.store i = none)
    (D : JsMap α) :
    ((store_get (store_merge (allocObj s D).2 i (allocObj s D).1) i).1 =
        some (s.heap.length + 1) ∧
      heapGet (store_get (store_merge (allocObj s D).2 i (allocObj s D).1) i).2
        (s.heap.length + 1) = D ∧
      (∀ j, j ≠ i →
        jsGet (store_merge (allocObj s D).2 i (allocObj s D).1).store j =
          jsGet s.store j)) ∧
    ((store_get (store_set (allocObj s D).2 i (allocObj s D).1) i).1 =
        some s.heap.length ∧
      heapGet (store_get (store_set (allocObj s D).2 i (allocObj s D).1) i).2
        s.heap.length = D ∧
      (∀ j, j ≠ i →
        jsGet (store_set (allocObj s D).2 i (allocObj s D).1).store j =
          jsGet s.store j)) := by
  constructor
  · have hm : store_merge (allocObj s D).2 i (allocObj s D).1 =
        { s with
           heap := s.heap ++ [D, D],
           store := mapSet s.store i ⟨s.now, s.heap.length + 1⟩,
           log := s.log ++ [Effect.storeMerge i] } := by
      simp [store_merge, allocObj, hmiss, heapGet, jsAssign_nil_left, jsGet,
        List.getElem?_append]
    rw [hm]
    rw [store_get_hit (jsGet_mapSet_self _ _ _)]
    refine ⟨rfl, ?_, fun j hj => jsGet_mapSet_ne _ _ hj⟩
    simp only [heapGet]
    rw [List.getD_eq_getElem _ _ (by simp), List.getElem_append_right (by simp)]
    simp
  · have hs2 : store_set (allocObj s D).2 i (allocObj s D).1 =
        { s with
           heap := s.heap ++ [D],
           store := mapSet s.store i ⟨s.now, s.heap.length⟩,
           log := s.log ++ [Effect.storeSet i] } := by
      simp [store_set, allocObj]
    rw [hs2]
    rw [store_get_hit (jsGet_mapSet_self _ _ _)]
    refine ⟨rfl, ?_, fun j hj => jsGet_mapSet_ne _ _ hj⟩
    simp only [heapGet]
    rw [List.getD_eq_getElem _ _ (by simp), List.getElem_append_right (by simp)]
    simp

/-- Concrete state with one live session `sid1` whose data holds a `test`
property and a `csrfToken`; used by several witnesses. -/
def sampleStLive : St String :=
  { heap := [[("test", "hello"), ("csrfToken", "tok")]],
    store := [("sid1", ⟨900, 0⟩)],
    ids := fun n => "uuid" ++ toString n, idCount := 0, now := 1000, log := [] }

/-- Witness for C1 at a concrete live session holding token `tok`. -/
theorem C1_witness :
    (Request.mk (some "sid1")).cookie = some "sid1" ∧
    ("sid1" : String) ≠ "" ∧
    jsGet sampleStLive.store "sid1" = some ⟨900, 0⟩ ∧
    (0 : Nat) < sampleStLive.heap.length ∧
    keysNodup (heapGet sampleStLive 0) ∧
    (((validateCSRFToken (Request.mk (some "sid1")) "tok" sampleStLive).1 = true ↔
        jsGet (heapGet sampleStLive 0) "csrfToken" = some "tok") ∧
      (jsGet (validateCSRFToken (Request.mk (some "sid1")) "tok" sampleStLive).2.store
          "sid1" = some ⟨1000, 1⟩ ∧
        heapGet (validateCSRFToken (Request.mk (some "sid1")) "tok" sampleStLive).2 1 =
          jsDelete (heapGet sampleStLive 0) "csrfToken") ∧
      (∀ t2 : String,
        (validateCSRFToken (Request.mk (some "sid1")) t2
          ((validateCSRFToken (Request.mk (some "sid1")) "tok" sampleStLive).2)).1 =
            false)) :=
  ⟨rfl, by decide, rfl, by decide, by unfold keysNodup; decide,
    @C1_csrf_single_use String _ sampleStLive (Request.mk (some "sid1")) "sid1" ⟨900, 0⟩
      rfl (by decide) rfl (by decide) (by unfold keysNodup; decide) "tok"⟩

/-- Witness for C2 at a concrete stale cookie id `dead`. -/
theorem C2_witness :
    (Request.mk (some "dead")).cookie = some "dead" ∧
    ("dead" : String) ≠ "" ∧
    jsGet sampleSt.store "dead" = none ∧
    sampleSt.ids sampleSt.idCount ≠ "dead" ∧
    ((getSessionId false (Request.mk (some "dead")) sampleSt).1 ≠ "dead" ∧
      getSessionId false (Request.mk (some "dead")) sampleSt =
        (sampleSt.ids sampleSt.idCount,
         { sampleSt with
            idCount := sampleSt.idCount + 1,
            log := sampleSt.log ++ [Effect.cookieDestroy] })) :=
  ⟨rfl, by decide, rfl, by decide,
    @C2_stale_cookie_readonly String sampleSt (Request.mk (some "dead")) "dead"
      rfl (by decide) rfl (by decide)⟩

/-- Witness for C3 at a concrete cookieless request over the empty state. -/
theorem C3_witness :
    (Request.mk (none : Option String)).cookie = none ∧
    jsGet sampleSt.store (sampleSt.ids sampleSt.idCount) = none ∧
    (heapGet (getSessionData (Request.mk none) sampleSt).2
        (getSessionData (Request.mk none) sampleSt).1 = ([] : JsMap String) ∧
      (getSessionData (Request.mk none) sampleSt).2.store = sampleSt.store ∧
      (getSessionData (Request.mk none) sampleSt).2.log = sampleSt.log) :=
  ⟨rfl, rfl, @C3_get_readonly String sampleSt (Request.mk none) rfl rfl⟩

/-- Witness for C4 (amended) at a concrete cookieless request and data
object. -/
theorem C4_witness :
    (Request.mk (none : Option String)).cookie = none ∧
    sampleSt.ids sampleSt.idCount ≠ "" ∧
    ((setSessionDataObj (Request.mk none) [("test", "hello")] sampleSt).1 =
        Except.ok () ∧
      (setSessionDataObj (Request.mk none) [("test", "hello")] sampleSt).2.log =
        sampleSt.log ++
          [Effect.storeSet (sampleSt.ids sampleSt.idCount),
           Effect.cookieWrite (sampleSt.ids sampleSt.idCount),
           Effect.storeMerge (sampleSt.ids sampleSt.idCount)] ∧
      heapGet (getSessionData (Request.mk (some (sampleSt.ids sampleSt.idCount)))
                 (setSessionDataObj (Request.mk none) [("test", "hello")] sampleSt).2).2
              (getSessionData (Request.mk (some (sampleSt.ids sampleSt.idCount)))
                 (setSessionDataObj (Request.mk none) [("test", "hello")] sampleSt).2).1 =
        [("test", "hello")]) :=
  ⟨rfl, by decide,
    @C4_lazy_materialization String sampleSt (Request.mk none) [("test", "hello")]
      rfl (by decide)⟩

/-- Witness for C5 (amended) at a concrete live session and key `test`. -/
theorem C5_witness :
    (Request.mk (some "sid1")).cookie = some "sid1" ∧
    ("sid1" : String) ≠ "" ∧
    jsGet sampleStLive.store "sid1" = some ⟨900, 0⟩ ∧
    (0 : Nat) < sampleStLive.heap.length ∧
    ("test" : String) ≠ "" ∧
    ((∀ v : String, jsGet (heapGet sampleStLive 0) "test" = some v →
        (pluckSessionProperty (Request.mk (some "sid1")) (some "test") sampleStLive).1 =
          Except.ok (some v) ∧
        (pluckSessionProperty (Request.mk (some "sid1")) (some "test") sampleStLive).2.log =
          sampleStLive.log ++ [Effect.storeSet "sid1"] ∧
        jsGet (pluckSessionProperty (Request.mk (some "sid1")) (some "test")
            sampleStLive).2.store "sid1" = some ⟨1000, 0⟩ ∧
        heapGet (pluckSessionProperty (Request.mk (some "sid1")) (some "test")
            sampleStLive).2 0 = jsDelete (heapGet sampleStLive 0) "test" ∧
        (pluckSessionProperty (Request.mk (some "sid1")) (some "test")
          ((pluckSessionProperty (Request.mk (some "sid1")) (some "test")
            sampleStLive).2)).1 = Except.ok none) ∧
      (jsGet (heapGet sampleStLive 0) "test" = none →
        pluckSessionProperty (Request.mk (some "sid1")) (some "test") sampleStLive =
          (Except.ok none,
           { sampleStLive with store := mapSet sampleStLive.store "sid1" ⟨1000, 0⟩ }))) :=
  ⟨rfl, by decide, rfl, by decide, by decide,
    @C5_pluck String sampleStLive (Request.mk (some "sid1")) "sid1" ⟨900, 0⟩
      rfl (by decide) rfl (by decide) "test" (by decide)⟩

/-- Witness for C6 at a concrete live record. -/
theorem C6_witness :
    jsGet sampleStLive.store "sid1" = some ⟨900, 0⟩ ∧
    ((store_get sampleStLive "sid1").1 = some 0 ∧
      (store_get sampleStLive "sid1").2.heap = sampleStLive.heap ∧
      jsGet (store_get sampleStLive "sid1").2.store "sid1" = some ⟨1000, 0⟩ ∧
      (∀ t, t ≤ 1000 + 60000 →
        jsGet (sweep ((store_get sampleStLive "sid1").2) t 60000).store "sid1" =
          some ⟨1000, 0⟩)) :=
  ⟨rfl, @C6_sliding_get String sampleStLive "sid1" ⟨900, 0⟩ rfl 60000⟩

/-- Witness for C7 at a concrete record written at time 900 with the sweep
timer started at 800, interval 10, max age 100. -/
theorem C7_witness :
    (sampleStLive.store.map Prod.fst).Nodup ∧
    jsGet sampleStLive.store "sid1" = some ⟨900, 0⟩ ∧
    (800 : Nat) ≤ 900 ∧
    (0 : Nat) < 10 ∧
    ((∀ t, t < 900 + 100 →
        jsGet (applySweeps sampleStLive 100 (sweepTimes 800 10 t)).store "sid1" =
          some ⟨900, 0⟩) ∧
      (∀ t, 900 + 100 + 10 ≤ t →
        jsGet (applySweeps sampleStLive 100 (sweepTimes 800 10 t)).store "sid1" =
          none)) :=
  ⟨by decide, rfl, by decide, by decide,
    @C7_expiry_window String sampleStLive "sid1" 0 900 100 10 800
      (by decide) rfl (by decide) (by decide)⟩

/-- Witness for C8 at a concrete unknown id and data object. -/
theorem C8_witness :
    jsGet sampleSt.store "newid" = none ∧
    (((store_get (store_merge (allocObj sampleSt [("a", "1")]).2 "newid"
          (allocObj sampleSt [("a", "1")]).1) "newid").1 =
        some (sampleSt.heap.length + 1) ∧
      heapGet (store_get (store_merge (allocObj sampleSt [("a", "1")]).2 "newid"
          (allocObj sampleSt [("a", "1")]).1) "newid").2
        (sampleSt.heap.length + 1) = [("a", "1")] ∧
      (∀ j, j ≠ "newid" →
        jsGet (store_merge (allocObj sampleSt [("a", "1")]).2 "newid"
          (allocObj sampleSt [("a", "1")]).1).store j = jsGet sampleSt.store j)) ∧
    ((store_get (store_set (allocObj sampleSt [("a", "1")]).2 "newid"
          (allocObj sampleSt [("a", "1")]).1) "newid").1 =
        some sampleSt.heap.length ∧
      heapGet (store_get (store_set (allocObj sampleSt [("a", "1")]).2 "newid"
          (allocObj sampleSt [("a", "1")]).1) "newid").2
        sampleSt.heap.length = [("a", "1")] ∧
      (∀ j, j ≠ "newid" →
        jsGet (store_set (allocObj sampleSt [("a", "1")]).2 "newid"
          (allocObj sampleSt [("a", "1")]).1).store j = jsGet sampleSt.store j))) :=
  ⟨rfl, @C8_merge_unknown String sampleSt "newid" rfl [("a", "1")]⟩

/-- Witness for C10 at a concrete stale-cookie request over the empty
state. -/
theorem C10_witness :
    (∀ cid, (Request.mk (some "dead")).cookie = some cid →
      jsGet sampleSt.store cid = none) ∧
    jsGet sampleSt.store (sampleSt.ids sampleSt.idCount) = none ∧
    jsGet sampleSt.store (sampleSt.ids (sampleSt.idCount + 1)) = none ∧
    ((validateCSRFToken (Request.mk (some "dead")) "tok" sampleSt).1 = false ∧
      jsGet sampleSt.store (sampleSt.ids (sampleSt.idCount + 1)) = none ∧
      jsGet (validateCSRFToken (Request.mk (some "dead")) "tok" sampleSt).2.store
        (sampleSt.ids (sampleSt.idCount + 1)) =
          some ⟨1000, sampleSt.heap.length + 2⟩ ∧
      heapGet (validateCSRFToken (Request.mk (some "dead")) "tok" sampleSt).2
        (sampleSt.heap.length + 2) = [] ∧
      (∃ delta,
        (validateCSRFToken (Request.mk (some "dead")) "tok" sampleSt).2.log =
          sampleSt.log ++ delta ∧
        Effect.cookieWrite (sampleSt.ids (sampleSt.idCount + 1)) ∈ delta)) :=
  ⟨fun cid _ => rfl, rfl, rfl,
    @C10_validate_creates_session String _ sampleSt (Request.mk (some "dead"))
      (fun cid _ => rfl) rfl rfl "tok"⟩

end NextServerSession
